import Mathlib

/-!
Verification of the Takedown duel-platform server core.

Shallow embedding of the room/game runtime from the source:
`server/controllers/gameController.js`, `server/controllers/roomController.js`,
`server/sockets/index.js`, and the mongoose schemas under `server/models/`.

All state is scoped to a single room: the database collections filtered by
`roomId` become plain lists, user ids become `Nat`, instants are epoch
milliseconds (`Nat`), and judge submission times are epoch seconds as returned
by the Codeforces API.  Fallible external calls (Codeforces fetches) are
modelled as `Option`-valued inputs: `none` is a non-OK judge response.
-/

namespace Takedown

/-- Room lifecycle status (`roomSchema.status`, enum `waiting/started/ended`). -/
inductive Status
  | waiting
  | started
  | ended
deriving Repr, DecidableEq

/-- Room settings (`roomSchema.settings`).  Ratings are JS numbers; we model
them as `Int` (fractional ratings never occur). -/
structure Settings where
  minRating : Int
  maxRating : Int
  questionCount : Nat
  duration : Nat      -- minutes
deriving Repr, DecidableEq

/-- A room document (`roomSchema`), minus the fields the core never reads.
`startTime` is epoch milliseconds, `none` while the room is waiting. -/
structure Room where
  code : String
  host : Nat
  participants : List Nat
  settings : Settings
  status : Status
  startTime : Option Nat
deriving Repr, DecidableEq

/-- A RoomProblem document (`roomProblemSchema`), scoped to one room. -/
structure RoomProblem where
  contestId : Nat
  index : String
  rating : Int
  basePoints : Int
  minPoints : Int
deriving Repr, DecidableEq

/-- A Score document (`scoreSchema`), scoped to one room.
`solvedAt` is epoch milliseconds. -/
structure Score where
  userId : Nat
  contestId : Nat
  index : String
  solvedAt : Nat
  points : Int
deriving Repr, DecidableEq

/-- A judge submission as returned by `user.status`
(`{problem:{contestId,index}, verdict, creationTimeSeconds}`). -/
structure Submission where
  contestId : Nat
  index : String
  verdict : String
  creationTimeSeconds : Nat
deriving Repr, DecidableEq

/-- A judge problem as returned by `problemset.problems`; `rating` is absent
for unrated problems. -/
structure CFProblem where
  contestId : Nat
  index : String
  rating : Option Int
deriving Repr, DecidableEq

/-- A secondary index declaration on a mongoose schema
(`schema.index({...}, { unique })`). -/
structure SchemaIndex where
  keyFields : List String
  unique : Bool
deriving Repr, DecidableEq

/-- Secondary indexes declared on `scoreSchema` in `models/Score.js`:
the schema declares none (no `schema.index(...)` call, no `unique` field
option besides the implicit `_id`). -/
def scoreSchemaIndexes : List SchemaIndex := []

/-- Secondary indexes declared on `usedProblemSchema` in
`models/UsedProblem.js`. -/
def usedProblemSchemaIndexes : List SchemaIndex :=
  [⟨["contestId", "index"], true⟩, ⟨["rating"], false⟩]

/-- `Score.create(...)`: appends unconditionally — with no uniqueness index on
the schema, the database accepts any document. -/
def scoreCreate (scores : List Score) (s : Score) : List Score := scores ++ [s]

/-- `Score.findOne({roomId, userId, contestId, index})` restricted to one
room's scores. -/
def findScore (scores : List Score) (userId contestId : Nat) (index : String) :
    Option Score :=
  scores.find? (fun s => s.userId == userId && s.contestId == contestId && s.index == index)

/-- `RoomProblem.findOne({roomId, contestId, index})` restricted to one room. -/
def findProblem (roomProblems : List RoomProblem) (contestId : Nat) (index : String) :
    Option RoomProblem :=
  roomProblems.find? (fun p => p.contestId == contestId && p.index == index)

/-- Number of scores carrying a given (user, contestId, index) key. -/
def countKey (scores : List Score) (userId contestId : Nat) (index : String) : Nat :=
  (scores.filter (fun s => s.userId == userId && s.contestId == contestId && s.index == index)).length

/-- The in-game validity filter from `checkSubmissionInternal` (and the HTTP
`checkSubmission`): matching problem, verdict `OK`, and
`creationTimeSeconds * 1000 > roomStartTime` — strictly after the start, with
no upper bound. -/
def isValidInGame (startMs contestId : Nat) (index : String) (sub : Submission) : Bool :=
  sub.contestId == contestId && sub.index == index && sub.verdict == "OK" &&
    decide (startMs < sub.creationTimeSeconds * 1000)

/-- The final-sweep validity filter from `autoCheckAllSubmissionsInternal`:
additionally `creationTimeSeconds * 1000 <= gameEndTime`. -/
def isValidSweep (startMs gameEndMs contestId : Nat) (index : String) (sub : Submission) : Bool :=
  sub.contestId == contestId && sub.index == index && sub.verdict == "OK" &&
    decide (startMs < sub.creationTimeSeconds * 1000) &&
    decide (sub.creationTimeSeconds * 1000 ≤ gameEndMs)

/-- The body of the earliest-submission selection loop: keep the first-seen
submission with minimal `creationTimeSeconds` among those passing the filter. -/
def earliestStep (valid : Submission → Bool) (acc : Option Submission) (sub : Submission) :
    Option Submission :=
  if valid sub then
    match acc with
    | none => some sub
    | some best =>
      if sub.creationTimeSeconds < best.creationTimeSeconds then some sub else some best
  else acc

/-- The earliest-submission selection loop of `checkSubmissionInternal` /
`checkSubmission` / `autoCheckAllSubmissionsInternal`. -/
def earliestSubmission (subs : List Submission) (valid : Submission → Bool) :
    Option Submission :=
  subs.foldl (earliestStep valid) none

/-- Point computation shared by `checkSubmissionInternal`, `checkSubmission`
and `autoCheckAllSubmissionsInternal`:
`elapsedMinutes = Math.floor((solveTime - roomStartTime) / 60000)`;
`points = Math.max(basePoints - elapsedMinutes * 5, minPoints)`.
`Int.fdiv` is JS `Math.floor` of the real quotient. -/
def computePoints (basePoints minPoints : Int) (startMs solveMs : Nat) : Int :=
  let elapsedMinutes : Int := Int.fdiv ((solveMs : Int) - (startMs : Int)) 60000
  max (basePoints - elapsedMinutes * 5) minPoints

/-- The result object of `checkSubmissionInternal`
(`{ solved, alreadySolved?, points?, message? }`). -/
structure CheckOutcome where
  solved : Bool
  alreadySolved : Bool := false
  points : Option Int := none
  message : Option String := none
deriving Repr, DecidableEq

/-- `checkSubmissionInternal(roomCode, oderId, handle, contestId, index)` from
`gameController.js`, with the room document and the room's collections passed
explicitly and the `user.status` fetch as an `Option` input (`none` = non-OK
judge response).  A `none` `startTime` makes `room.startTime.getTime()` throw;
the surrounding `try/catch` then returns the generic failure object. -/
def checkSubmissionInternal (room : Room) (roomProblems : List RoomProblem)
    (scores : List Score) (userId contestId : Nat) (index : String)
    (cfData : Option (List Submission)) : CheckOutcome × List Score :=
  if room.status ≠ Status.started then
    ({ solved := false, message := some "Game has not started" }, scores)
  else
    match findProblem roomProblems contestId index with
    | none => ({ solved := false, message := some "Problem not found in room" }, scores)
    | some problem =>
      match findScore scores userId contestId index with
      | some existingScore =>
        ({ solved := true, alreadySolved := true, points := some existingScore.points }, scores)
      | none =>
        match cfData with
        | none =>
          ({ solved := false, message := some "Failed to fetch submissions from Codeforces" }, scores)
        | some subs =>
          match room.startTime with
          | none => ({ solved := false, message := some "Failed to check submission" }, scores)
          | some startMs =>
            match earliestSubmission subs (isValidInGame startMs contestId index) with
            | none => ({ solved := false, message := some "Problem not solved yet" }, scores)
            | some sub =>
              let solveMs := sub.creationTimeSeconds * 1000
              let points := computePoints problem.basePoints problem.minPoints startMs solveMs
              ({ solved := true, points := some points },
               scoreCreate scores ⟨userId, contestId, index, solveMs, points⟩)

/-- One (participant, problem) step of the final sweep: skip if already
scored, otherwise insert a Score for the earliest valid submission. -/
def autoCheckProblem (startMs gameEndMs userId : Nat) (subs : List Submission)
    (problem : RoomProblem) (scores : List Score) : List Score :=
  match findScore scores userId problem.contestId problem.index with
  | some _ => scores
  | none =>
    match earliestSubmission subs
        (isValidSweep startMs gameEndMs problem.contestId problem.index) with
    | none => scores
    | some sub =>
      let solveMs := sub.creationTimeSeconds * 1000
      scoreCreate scores
        ⟨userId, problem.contestId, problem.index, solveMs,
         computePoints problem.basePoints problem.minPoints startMs solveMs⟩

/-- The per-participant body of the sweep: a failed `user.status` fetch is
logged and the participant skipped (`continue`). -/
def autoCheckParticipant (startMs gameEndMs : Nat) (roomProblems : List RoomProblem)
    (userId : Nat) (cfData : Option (List Submission)) (scores : List Score) : List Score :=
  match cfData with
  | none => scores
  | some subs =>
    roomProblems.foldl
      (fun sc problem => autoCheckProblem startMs gameEndMs userId subs problem sc) scores

/-- `autoCheckAllSubmissionsInternal(roomCode)` from `gameController.js`.
If the room already ended, nothing changes.  A `none` `startTime` makes
`room.startTime.getTime()` throw before any write; the catch returns with the
room unchanged.  Otherwise every participant is swept and the room is marked
ended. -/
def autoCheckAllSubmissionsInternal (room : Room) (roomProblems : List RoomProblem)
    (scores : List Score) (cfOf : Nat → Option (List Submission)) :
    Room × List Score :=
  if room.status = Status.ended then (room, scores)
  else
    match room.startTime with
    | none => (room, scores)
    | some startMs =>
      let gameEndMs := startMs + room.settings.duration * 60 * 1000
      let finalScores := room.participants.foldl
        (fun sc pid => autoCheckParticipant startMs gameEndMs roomProblems pid (cfOf pid) sc)
        scores
      ({ room with status := Status.ended }, finalScores)

/-! ### startGame / endGame -/

/-- `midR = Math.floor((minR + maxR) / 2)`. -/
def midRating (room : Room) : Int :=
  Int.fdiv (room.settings.minRating + room.settings.maxRating) 2

/-- Lower-half filter: `p.rating && p.rating >= minR && p.rating <= midR`
(JS truthiness: a missing or zero rating is excluded). -/
def ratingInLower (minR midR : Int) (p : CFProblem) : Bool :=
  match p.rating with
  | none => false
  | some r => !(r == 0) && decide (minR ≤ r) && decide (r ≤ midR)

/-- Upper-half filter: `p.rating && p.rating > midR && p.rating <= maxR`. -/
def ratingInUpper (midR maxR : Int) (p : CFProblem) : Bool :=
  match p.rating with
  | none => false
  | some r => !(r == 0) && decide (midR < r) && decide (r ≤ maxR)

/-- `lowerHalf` in `startGameInternal`. -/
def lowerPartition (room : Room) (ps : List CFProblem) : List CFProblem :=
  ps.filter (ratingInLower room.settings.minRating (midRating room))

/-- `upperHalf` in `startGameInternal`. -/
def upperPartition (room : Room) (ps : List CFProblem) : List CFProblem :=
  ps.filter (ratingInUpper (midRating room) room.settings.maxRating)

/-- The fixed `PROBLEM_SCORING` table: `(basePoints, minPoints)` for problem 1
(easier half) and problem 2 (harder half). -/
def PROBLEM_SCORING : List (Int × Int) := [(500, 250), (1000, 500)]

/-- The return object of `startGameInternal`. -/
structure StartGameOutcome where
  success : Bool
  error : Option String := none
  problems : List RoomProblem := []
  startTime : Option Nat := none
  duration : Nat := 0
deriving Repr, DecidableEq

/-- `startGameInternal(roomCode)` from `gameController.js`.  The
`problemset.problems` fetch is the `Option` input `cfProblems`; the two
`sort(() => Math.random() - 0.5)` shuffles are the function parameters
`shuffleLower`/`shuffleUpper` (they permute, hence preserve length); `now` is
the wall clock at `new Date()`.  Returns the outcome together with the
updated room and RoomProblem collection.  Note the status guard rejects only
`started` rooms, and the emptiness check (`length < 1`) precedes the
`deleteMany`/`create` writes. -/
def startGameInternal (room : Room) (cfProblems : Option (List CFProblem))
    (shuffleLower shuffleUpper : List CFProblem → List CFProblem) (now : Nat)
    (roomProblems : List RoomProblem) :
    StartGameOutcome × Room × List RoomProblem :=
  if room.status = Status.started then
    ({ success := false, error := some "Game already started" }, room, roomProblems)
  else
    match cfProblems with
    | none =>
      ({ success := false, error := some "Failed to fetch problems from Codeforces" },
       room, roomProblems)
    | some ps =>
      match shuffleLower (lowerPartition room ps), shuffleUpper (upperPartition room ps) with
      | p1 :: _, p2 :: _ =>
        let scoring1 := PROBLEM_SCORING.getD 0 (500, 250)
        let scoring2 := PROBLEM_SCORING.getD 1 (1000, 500)
        let newProblems : List RoomProblem :=
          [⟨p1.contestId, p1.index, p1.rating.getD 0, scoring1.1, scoring1.2⟩,
           ⟨p2.contestId, p2.index, p2.rating.getD 0, scoring2.1, scoring2.2⟩]
        ({ success := true, problems := newProblems, startTime := some now,
           duration := room.settings.duration },
         { room with status := Status.started, startTime := some now }, newProblems)
      | _, _ =>
        ({ success := false,
           error := some "Could not fetch enough problems. Try adjusting rating range." },
         room, roomProblems)

/-- The result of the HTTP `endGame` handler. -/
inductive EndGameResult
  | forbidden
  | ok
deriving Repr, DecidableEq

/-- `POST /api/game/:code/end` (`endGame` in `gameController.js`): only the
host is allowed; the status is set to `ended` with no check of the current
status. -/
def endGame (room : Room) (sessionUserId : Nat) : EndGameResult × Room :=
  if sessionUserId ≠ room.host then (EndGameResult.forbidden, room)
  else (EndGameResult.ok, { room with status := Status.ended })

/-! ### Leaderboard -/

/-- A row of the `Score.aggregate` pipeline in `computeLeaderboard`: a score
joined (`$lookup`/`$unwind`) with its user's handle; scores whose user is
missing are dropped by the `$unwind`. -/
structure ScoreRow where
  handle : String
  contestId : Nat
  index : String
  points : Int
  solvedAt : Nat
deriving Repr, DecidableEq

/-- One `problemScores` element pushed by the grouping loop. -/
structure ProblemScore where
  contestId : Nat
  index : String
  points : Int
  solvedAt : Nat
deriving Repr, DecidableEq

/-- A leaderboard entry (`userScores[handle]` in `computeLeaderboard`). -/
structure LBEntry where
  handle : String
  totalPoints : Int
  solvedCount : Nat
  problemScores : List ProblemScore
deriving Repr, DecidableEq

/-- `User` lookup by id (the `$lookup` join), as an association list
`userId ↦ handle`. -/
def lookupHandle (users : List (Nat × String)) (userId : Nat) : Option String :=
  (users.find? (fun u => u.1 == userId)).map (fun u => u.2)

/-- The aggregation stage of `computeLeaderboard`: each score, in collection
order, joined with its user's handle. -/
def scoreRows (users : List (Nat × String)) (scores : List Score) : List ScoreRow :=
  scores.filterMap (fun s =>
    (lookupHandle users s.userId).map (fun h =>
      ⟨h, s.contestId, s.index, s.points, s.solvedAt⟩))

/-- One step of the grouping loop: accumulate a row into the entry for its
handle, keeping first-appearance order of handles (JS object keys preserve
insertion order) and appending to `problemScores` in row order. -/
def addRow : List LBEntry → ScoreRow → List LBEntry
  | [], r => [⟨r.handle, r.points, 1, [⟨r.contestId, r.index, r.points, r.solvedAt⟩]⟩]
  | e :: es, r =>
    if e.handle == r.handle then
      { e with totalPoints := e.totalPoints + r.points,
               solvedCount := e.solvedCount + 1,
               problemScores := e.problemScores ++ [⟨r.contestId, r.index, r.points, r.solvedAt⟩] } :: es
    else e :: addRow es r

/-- The `userScores` grouping of `computeLeaderboard`. -/
def groupRows (rows : List ScoreRow) : List LBEntry :=
  rows.foldl addRow []

/-- Stable insertion for descending `totalPoints`: an element goes before the
first strictly-smaller entry and after all equal ones that preceded it. -/
def insertByPointsDesc (e : LBEntry) : List LBEntry → List LBEntry
  | [] => [e]
  | x :: xs =>
    if x.totalPoints ≤ e.totalPoints then e :: x :: xs
    else x :: insertByPointsDesc e xs

/-- The final `sort((a, b) => b.totalPoints - a.totalPoints)`: JS `sort` is
stable, so this is the unique stable descending sort by `totalPoints`. -/
def sortByPointsDesc : List LBEntry → List LBEntry
  | [] => []
  | x :: xs => insertByPointsDesc x (sortByPointsDesc xs)

/-- `computeLeaderboard(roomId)` from `gameController.js`: aggregate the
room's scores with their users, group by handle, sort by `totalPoints`
descending. -/
def computeLeaderboard (users : List (Nat × String)) (scores : List Score) : List LBEntry :=
  sortByPointsDesc (groupRows (scoreRows users scores))

/-! ### Socket layer -/

/-- Where an outbound event goes: `io.to(roomCode)` or `socket.emit`. -/
inductive Target
  | room
  | caller
deriving Repr, DecidableEq

/-- Outbound socket events with the payload fields the claims are about. -/
inductive SocketEvent
  | gameStarting
  | gameStarted
  | errorEvt (message : String)
  | problemSolved (userId : Nat) (handle : String) (contestId : Nat) (index : String) (points : Int)
  | problemNotSolved (contestId : Nat) (index : String) (message : String)
  | leaderboardUpdate (leaderboard : List LBEntry)
  | hostChanged (newHost : Nat)
  | roomUpdate
  | playerLeft (userId : Nat)
deriving Repr, DecidableEq

/-- The `check-problem` socket handler from `sockets/index.js`.  `roomCode`
resolution is the `Option Room` input; `contestId`/`index` falsiness is the JS
`!contestId || !index` guard.  On `result.solved` the handler broadcasts
`problem-solved` and the recomputed leaderboard to the whole room — it does
not inspect `result.alreadySolved`. -/
def checkProblemHandler (users : List (Nat × String)) (roomFound : Option Room)
    (roomProblems : List RoomProblem) (scores : List Score)
    (userId : Nat) (handle : String) (contestId : Nat) (index : String)
    (cfData : Option (List Submission)) : List (Target × SocketEvent) × List Score :=
  if contestId = 0 ∨ index = "" then
    ([(Target.caller, SocketEvent.errorEvt "Missing required fields")], scores)
  else
    match roomFound with
    | none => ([(Target.caller, SocketEvent.errorEvt "Room not found")], scores)
    | some room =>
      if room.status ≠ Status.started then
        ([(Target.caller, SocketEvent.errorEvt "Game has not started")], scores)
      else
        let result := checkSubmissionInternal room roomProblems scores userId contestId index cfData
        if result.1.solved then
          ([(Target.room,
             SocketEvent.problemSolved userId handle contestId index (result.1.points.getD 0)),
            (Target.room, SocketEvent.leaderboardUpdate (computeLeaderboard users result.2))],
           result.2)
        else
          ([(Target.caller,
             SocketEvent.problemNotSolved contestId index
               (result.1.message.getD "Problem not solved yet"))],
           result.2)

/-- The `start-game` socket handler from `sockets/index.js`: host check, the
two-player minimum, the unconditional `game-starting` broadcast, then
`startGameInternal` and either `game-started` to the room or `error` to the
caller. -/
def startGameHandler (roomFound : Option Room) (callerId : Nat)
    (cfProblems : Option (List CFProblem))
    (shuffleLower shuffleUpper : List CFProblem → List CFProblem) (now : Nat)
    (roomProblems : List RoomProblem) :
    List (Target × SocketEvent) × Option Room × List RoomProblem :=
  match roomFound with
  | none => ([(Target.caller, SocketEvent.errorEvt "Room not found")], none, roomProblems)
  | some room =>
    if room.host ≠ callerId then
      ([(Target.caller, SocketEvent.errorEvt "Only the host can start the game")],
       some room, roomProblems)
    else if room.participants.length < 2 then
      ([(Target.caller,
         SocketEvent.errorEvt "You cannot start the game with less than 2 players")],
       some room, roomProblems)
    else
      let r := startGameInternal room cfProblems shuffleLower shuffleUpper now roomProblems
      if r.1.success then
        ([(Target.room, SocketEvent.gameStarting), (Target.room, SocketEvent.gameStarted)],
         some r.2.1, r.2.2)
      else
        ([(Target.room, SocketEvent.gameStarting),
          (Target.caller, SocketEvent.errorEvt (r.1.error.getD "Failed to start game"))],
         some r.2.1, r.2.2)

/-- The result of `transferHostIfNeeded`: the `Room.updateOne` host write (if
performed), the emitted events, and the boolean return value.  The host write
happens before the new host's user record is looked up, so it is performed
even when the `host-changed` event is not emitted. -/
structure HostTransfer where
  dbHostSet : Option Nat
  events : List (Target × SocketEvent)
  returned : Bool
deriving Repr, DecidableEq

/-- `transferHostIfNeeded(room, roomCode, leavingUserId, leavingHandle)` from
`sockets/index.js`.  The room passed by both call sites (explicit leave and
grace expiry) already has the leaver removed from `participants`.
`findUser` models whether `User.findById` resolves. -/
def transferHostIfNeeded (room : Room) (leavingUserId : Nat) (findUser : Nat → Bool) :
    HostTransfer :=
  if room.host ≠ leavingUserId then ⟨none, [], false⟩
  else if room.status ≠ Status.waiting then ⟨none, [], false⟩
  else
    match room.participants with
    | [] => ⟨none, [], false⟩
    | firstP :: _ =>
      if findUser firstP then
        ⟨some firstP, [(Target.room, SocketEvent.hostChanged firstP)], true⟩
      else ⟨some firstP, [], false⟩

/-- `leaveRoom` (HTTP, `roomController.js`), from the participant removal on:
remove the caller from `participants`; an empty room is cascade-deleted
(`none`); otherwise, if the leaver was host and the room is still waiting,
the first remaining participant becomes host and `host-changed` is emitted
(when the user record resolves), followed by `room-update` and `player-left`. -/
def leaveRoom (room : Room) (userId : Nat) (findUser : Nat → Bool) :
    Option Room × List (Target × SocketEvent) :=
  let remaining := room.participants.filter (fun p => p != userId)
  match remaining with
  | [] => (none, [])
  | firstP :: rest =>
    let room1 := { room with participants := firstP :: rest }
    if room.host = userId ∧ room.status = Status.waiting then
      let room2 := { room1 with host := firstP }
      if findUser firstP then
        (some room2,
         [(Target.room, SocketEvent.hostChanged firstP),
          (Target.room, SocketEvent.roomUpdate),
          (Target.room, SocketEvent.playerLeft userId)])
      else
        (some room2,
         [(Target.room, SocketEvent.roomUpdate),
          (Target.room, SocketEvent.playerLeft userId)])
    else
      (some room1,
       [(Target.room, SocketEvent.roomUpdate),
        (Target.room, SocketEvent.playerLeft userId)])

/-! ### Room settings (roomController) -/

/-- JS `a || b` on a numeric field: `undefined`/`null` (here `none`) and `0`
are falsy and fall through to the default. -/
def jsOrInt (v : Option Int) (dflt : Int) : Int :=
  match v with
  | none => dflt
  | some x => if x = 0 then dflt else x

/-- The settings object built by `createRoom`:
`minRating: minRating || 800, maxRating: maxRating || 1200,
questionCount: 2, duration: 15`. -/
def createRoomSettings (minRating maxRating : Option Int) : Settings :=
  { minRating := jsOrInt minRating 800
    maxRating := jsOrInt maxRating 1200
    questionCount := 2
    duration := 15 }

/-- The result of the HTTP `updateSettings` handler. -/
inductive UpdateResult
  | forbidden
  | conflict
  | ok (s : Settings)
deriving Repr, DecidableEq

/-- `updateSettings` (`roomController.js`): host-only, waiting-only;
`minRating: minRating || room.settings.minRating` and likewise for
`maxRating`; `questionCount` and `duration` are pinned to 2 and 15. -/
def updateSettings (room : Room) (userId : Nat) (minRating maxRating : Option Int) :
    UpdateResult :=
  if room.host ≠ userId then UpdateResult.forbidden
  else if room.status ≠ Status.waiting then UpdateResult.conflict
  else
    UpdateResult.ok
      { minRating := jsOrInt minRating room.settings.minRating
        maxRating := jsOrInt maxRating room.settings.maxRating
        questionCount := 2
        duration := 15 }

/-! ### Spec-side definitions (for comparison with the specification's words) -/

/-- Earliest `solvedAt` across an entry's scores (spec-side; the entry
ordering the specification prescribes refers to it). -/
def entryEarliestSolve (e : LBEntry) : Nat :=
  match e.problemScores with
  | [] => 0
  | p :: rest => rest.foldl (fun m q => min m q.solvedAt) p.solvedAt

/-- The leaderboard entry ordering the specification prescribes: descending
`totalPoints`, then ascending earliest solve instant, then ascending handle.
Follows the spec's words, for comparison with `computeLeaderboard`. -/
def spec_entryLe (a b : LBEntry) : Bool :=
  decide (b.totalPoints < a.totalPoints) ||
    (a.totalPoints == b.totalPoints &&
      (decide (entryEarliestSolve a < entryEarliestSolve b) ||
        (entryEarliestSolve a == entryEarliestSolve b && (compare a.handle b.handle ≠ Ordering.gt))))

/-- Adjacent-pairs sortedness under `spec_entryLe`. -/
def spec_chainSorted : List LBEntry → Bool
  | [] => true
  | [_] => true
  | a :: b :: rest => spec_entryLe a b && spec_chainSorted (b :: rest)

/-- `problemScores` sorted ascending by `solvedAt` (spec-side). -/
def spec_problemScoresSorted : List ProblemScore → Bool
  | [] => true
  | [_] => true
  | a :: b :: rest => decide (a.solvedAt ≤ b.solvedAt) && spec_problemScoresSorted (b :: rest)

/-- The full leaderboard-shape property claimed by the specification. -/
def spec_leaderboardClaim (l : List LBEntry) : Bool :=
  spec_chainSorted l && l.all (fun e => spec_problemScoresSorted e.problemScores)

/-! ## Helper lemmas -/

/-- On the domain the callers guarantee (solve not before start), the JS
floor-division point formula is the natural-number division formula of the
specification. -/
theorem computePoints_eq_natDiv (basePoints minPoints : Int) (startMs solveMs : Nat)
    (h : startMs ≤ solveMs) :
    computePoints basePoints minPoints startMs solveMs
      = max (basePoints - 5 * (((solveMs - startMs) / 60000 : Nat) : Int)) minPoints := by
  unfold computePoints
  have h1 : ((solveMs : Int) - (startMs : Int)).fdiv 60000
      = (((solveMs - startMs) / 60000 : Nat) : Int) := by
    have hc : ((solveMs : Int) - (startMs : Int)) = (((solveMs - startMs : Nat)) : Int) := by
      omega
    rw [hc, show ((60000 : Int)) = (((60000 : Nat)) : Int) from rfl, ← Int.ofNat_fdiv]
  rw [h1]
  show (basePoints - (((solveMs - startMs) / 60000 : Nat) : Int) * 5) ⊔ minPoints = _
  have h2 : (((solveMs - startMs) / 60000 : Nat) : Int) * 5
      = 5 * (((solveMs - startMs) / 60000 : Nat) : Int) := by ring
  rw [h2]

theorem le_computePoints (basePoints minPoints : Int) (startMs solveMs : Nat) :
    minPoints ≤ computePoints basePoints minPoints startMs solveMs :=
  le_max_right _ _

theorem computePoints_mono (basePoints minPoints : Int) (startMs t1 t2 : Nat)
    (h1 : startMs ≤ t1) (h2 : t1 ≤ t2) :
    computePoints basePoints minPoints startMs t2
      ≤ computePoints basePoints minPoints startMs t1 := by
  rw [computePoints_eq_natDiv _ _ _ _ h1, computePoints_eq_natDiv _ _ _ _ (le_trans h1 h2)]
  have hdiv : (t1 - startMs) / 60000 ≤ (t2 - startMs) / 60000 :=
    Nat.div_le_div_right (Nat.sub_le_sub_right h2 startMs)
  have hdiv' : (((t1 - startMs) / 60000 : Nat) : Int) ≤ (((t2 - startMs) / 60000 : Nat) : Int) := by
    exact_mod_cast hdiv
  omega

theorem earliestStep_valid (valid : Submission → Bool) (acc : Option Submission)
    (sub e : Submission) (h : earliestStep valid acc sub = some e)
    (hacc : ∀ x, acc = some x → valid x = true) : valid e = true := by
  unfold earliestStep at h
  by_cases hv : valid sub = true
  · rw [if_pos hv] at h
    cases acc with
    | none =>
      cases h
      exact hv
    | some best =>
      dsimp only at h
      by_cases hlt : sub.creationTimeSeconds < best.creationTimeSeconds
      · rw [if_pos hlt] at h
        cases h
        exact hv
      · rw [if_neg hlt] at h
        cases h
        exact hacc e rfl
  · rw [if_neg hv] at h
    exact hacc e h

theorem foldl_earliestStep_valid (valid : Submission → Bool) :
    ∀ (subs : List Submission) (acc : Option Submission),
      (∀ x, acc = some x → valid x = true) →
      ∀ e, subs.foldl (earliestStep valid) acc = some e → valid e = true := by
  intro subs
  induction subs with
  | nil =>
    intro acc hacc e h
    exact hacc e h
  | cons x xs ih =>
    intro acc hacc e h
    exact ih (earliestStep valid acc x)
      (fun y hy => earliestStep_valid valid acc x y hy hacc) e h

theorem earliestSubmission_valid (subs : List Submission) (valid : Submission → Bool)
    (sub : Submission) (h : earliestSubmission subs valid = some sub) : valid sub = true :=
  foldl_earliestStep_valid valid subs none (fun _ hx => by cases hx) sub h

/-- Membership closure through a `foldl` whose step only appends scores
satisfying `P`. -/
theorem mem_foldl_step {β : Type} (step : List Score → β → List Score) (P : Score → Prop)
    (hstep : ∀ sc x s, s ∈ step sc x → s ∈ sc ∨ P s) :
    ∀ (l : List β) (init : List Score) (s : Score), s ∈ l.foldl step init → s ∈ init ∨ P s := by
  intro l
  induction l with
  | nil =>
    intro init s h
    exact Or.inl h
  | cons x xs ih =>
    intro init s h
    rcases ih (step init x) s h with h' | hP
    · exact hstep init x s h'
    · exact Or.inr hP

theorem countKey_append (a b : List Score) (userId contestId : Nat) (index : String) :
    countKey (a ++ b) userId contestId index
      = countKey a userId contestId index + countKey b userId contestId index := by
  simp [countKey, List.filter_append]

theorem countKey_eq_zero_of_findScore_none (scores : List Score) (userId contestId : Nat)
    (index : String) (h : findScore scores userId contestId index = none) :
    countKey scores userId contestId index = 0 := by
  rw [countKey, List.length_eq_zero, List.filter_eq_nil_iff]
  rw [findScore, List.find?_eq_none] at h
  exact h

theorem mem_insertByPointsDesc (e x : LBEntry) :
    ∀ l : List LBEntry, x ∈ insertByPointsDesc e l → x = e ∨ x ∈ l := by
  intro l
  induction l with
  | nil =>
    intro h
    simp [insertByPointsDesc] at h
    exact Or.inl h
  | cons y ys ih =>
    intro h
    unfold insertByPointsDesc at h
    by_cases hle : y.totalPoints ≤ e.totalPoints
    · rw [if_pos hle] at h
      rcases List.mem_cons.mp h with h1 | h1
      · exact Or.inl h1
      · exact Or.inr h1
    · rw [if_neg hle] at h
      rcases List.mem_cons.mp h with h1 | h1
      · exact Or.inr (h1 ▸ List.mem_cons_self y ys)
      · rcases ih h1 with h2 | h2
        · exact Or.inl h2
        · exact Or.inr (List.mem_cons_of_mem y h2)

theorem pairwise_insertByPointsDesc (e : LBEntry) :
    ∀ l : List LBEntry,
      l.Pairwise (fun a b => b.totalPoints ≤ a.totalPoints) →
      (insertByPointsDesc e l).Pairwise (fun a b => b.totalPoints ≤ a.totalPoints) := by
  intro l
  induction l with
  | nil =>
    intro _
    simp [insertByPointsDesc]
  | cons y ys ih =>
    intro h
    rcases List.pairwise_cons.mp h with ⟨hy, hys⟩
    unfold insertByPointsDesc
    by_cases hle : y.totalPoints ≤ e.totalPoints
    · rw [if_pos hle]
      refine List.pairwise_cons.mpr ⟨?_, h⟩
      intro z hz
      rcases List.mem_cons.mp hz with h1 | h1
      · exact h1 ▸ hle
      · exact le_trans (hy z h1) hle
    · rw [if_neg hle]
      refine List.pairwise_cons.mpr ⟨?_, ih hys⟩
      intro z hz
      rcases mem_insertByPointsDesc e z ys hz with h1 | h1
      · exact h1 ▸ le_of_lt (lt_of_not_le hle)
      · exact hy z h1

theorem pairwise_sortByPointsDesc (l : List LBEntry) :
    (sortByPointsDesc l).Pairwise (fun a b => b.totalPoints ≤ a.totalPoints) := by
  induction l with
  | nil => simp [sortByPointsDesc]
  | cons x xs ih => exact pairwise_insertByPointsDesc x (sortByPointsDesc xs) ih


/-- Everything `checkSubmissionInternal` can do to the score collection:
either it is left unchanged, or — only when no score for the key exists — a
single score for the checked key is appended, whose solve instant is the
selected submission's creation instant. -/
theorem checkSubmissionInternal_scores_spec (room : Room) (rps : List RoomProblem)
    (scores : List Score) (u c : Nat) (i : String) (cf : Option (List Submission)) :
    (checkSubmissionInternal room rps scores u c i cf).2 = scores
    ∨ (findScore scores u c i = none
       ∧ ∃ (startMs : Nat) (pb : RoomProblem) (subs : List Submission) (sub : Submission),
           room.startTime = some startMs
           ∧ findProblem rps c i = some pb
           ∧ cf = some subs
           ∧ earliestSubmission subs (isValidInGame startMs c i) = some sub
           ∧ (checkSubmissionInternal room rps scores u c i cf).2
             = scores ++ [⟨u, c, i, sub.creationTimeSeconds * 1000,
                 computePoints pb.basePoints pb.minPoints startMs
                   (sub.creationTimeSeconds * 1000)⟩]) := by
  unfold checkSubmissionInternal
  by_cases h0 : room.status ≠ Status.started
  · rw [if_pos h0]
    exact Or.inl rfl
  · rw [if_neg h0]
    cases hp : findProblem rps c i with
    | none => exact Or.inl rfl
    | some problem =>
      dsimp only
      cases hf : findScore scores u c i with
      | some ex => exact Or.inl rfl
      | none =>
        dsimp only
        cases cf with
        | none => exact Or.inl rfl
        | some subs =>
          dsimp only
          cases ht : room.startTime with
          | none => exact Or.inl rfl
          | some startMs =>
            dsimp only
            cases he : earliestSubmission subs (isValidInGame startMs c i) with
            | none => exact Or.inl rfl
            | some sub =>
              dsimp only
              right
              exact ⟨rfl, startMs, problem, subs, sub, rfl, rfl, rfl, he, by
                rw [scoreCreate]⟩

/-- Everything one sweep step (`autoCheckProblem`) can do to the score
collection: unchanged, or — only when no score for the key exists — a single
score for the problem's key appended, at the selected submission's creation
instant. -/
theorem autoCheckProblem_scores_spec (startMs gameEndMs u : Nat) (subs : List Submission)
    (pb : RoomProblem) (sc : List Score) :
    autoCheckProblem startMs gameEndMs u subs pb sc = sc
    ∨ (findScore sc u pb.contestId pb.index = none
       ∧ ∃ sub : Submission,
           earliestSubmission subs (isValidSweep startMs gameEndMs pb.contestId pb.index)
             = some sub
           ∧ autoCheckProblem startMs gameEndMs u subs pb sc
             = sc ++ [⟨u, pb.contestId, pb.index, sub.creationTimeSeconds * 1000,
                 computePoints pb.basePoints pb.minPoints startMs
                   (sub.creationTimeSeconds * 1000)⟩]) := by
  unfold autoCheckProblem
  cases hf : findScore sc u pb.contestId pb.index with
  | some ex => exact Or.inl rfl
  | none =>
    dsimp only
    cases he : earliestSubmission subs (isValidSweep startMs gameEndMs pb.contestId pb.index) with
    | none => exact Or.inl rfl
    | some sub =>
      dsimp only
      right
      exact ⟨rfl, sub, rfl, by rw [scoreCreate]⟩

/-! ## Claims -/

/-- C6: for all basePoints, minPoints and solve instants t1 ≤ t2 after the
start, the computed points equal
max(basePoints − 5·floor((solveInstant − startInstant)/60s), minPoints),
points at t2 are ≤ points at t1, and points are ≥ minPoints. -/
theorem c6_scoring_formula_monotone (basePoints minPoints : Int) (startMs t1 t2 : Nat)
    (h1 : startMs < t1) (h2 : t1 ≤ t2) :
    computePoints basePoints minPoints startMs t1
        = max (basePoints - 5 * (((t1 - startMs) / 60000 : Nat) : Int)) minPoints
      ∧ computePoints basePoints minPoints startMs t2
          ≤ computePoints basePoints minPoints startMs t1
      ∧ minPoints ≤ computePoints basePoints minPoints startMs t2 :=
  ⟨computePoints_eq_natDiv _ _ _ _ (le_of_lt h1),
   computePoints_mono _ _ _ _ _ (le_of_lt h1) h2,
   le_computePoints _ _ _ _⟩

/-- Witness for C6 at basePoints=500, minPoints=250, start=0, t1=200000 ms,
t2=380000 ms. -/
theorem c6_scoring_formula_monotone_witness :
    (0 : Nat) < 200000 ∧ (200000 : Nat) ≤ 380000
      ∧ computePoints 500 250 0 200000
          = max (500 - 5 * (((200000 - 0) / 60000 : Nat) : Int)) 250
      ∧ computePoints 500 250 0 380000 ≤ computePoints 500 250 0 200000
      ∧ (250 : Int) ≤ computePoints 500 250 0 380000 := by
  have h := c6_scoring_formula_monotone 500 250 0 200000 380000 (by decide) (by decide)
  exact ⟨by decide, by decide, h.1, h.2.1, h.2.2⟩

/-- C5 counterexample: with two tied users whose first score rows appear in
the order B, A but whose earliest solves order them A, B — and B's
problemScores arriving out of solvedAt order — the computed leaderboard
satisfies neither the claimed tie-break ordering nor the claimed
problemScores sorting. -/
theorem c5_counterexample :
    spec_leaderboardClaim
        (computeLeaderboard [(1, "A"), (2, "B")]
          [⟨2, 1, "A", 300, 200⟩, ⟨1, 1, "A", 100, 485⟩, ⟨2, 1, "B", 200, 285⟩])
      = false := by decide

/-- C5 (amended): the leaderboard projection orders entries by descending
totalPoints only; no secondary or tertiary tie-break is applied and
problemScores are not sorted. -/
theorem c5_points_descending (users : List (Nat × String)) (scores : List Score) :
    (computeLeaderboard users scores).Pairwise (fun a b => b.totalPoints ≤ a.totalPoints) :=
  pairwise_sortByPointsDesc _

/-- C3 counterexample: `startGameInternal` moves an `ended` room back to
`started` (its guard rejects only `started` rooms), and `endGame` by the host
moves a `waiting` room directly to `ended`. -/
theorem c3_counterexample :
    (startGameInternal ⟨"R1", 1, [1, 2], ⟨800, 1200, 2, 15⟩, Status.ended, some 0⟩
        (some [⟨1, "A", some 900⟩, ⟨2, "B", some 1100⟩]) id id 999 []).2.1.status
      = Status.started
    ∧ (endGame ⟨"R2", 1, [1, 2], ⟨800, 1200, 2, 15⟩, Status.waiting, none⟩ 1).2.status
      = Status.ended := by
  exact ⟨by decide, by decide⟩

/-- C3 (amended): status never moves towards `waiting` — every operation
either preserves the status or moves it forward to `started`/`ended` — and
`startGameInternal` refuses rooms already `started`, while the leave paths
never change status at all; but an `ended` room can
be moved back to `started` by `startGameInternal`, and `endGame` moves any
host room (including `waiting`) to `ended`. -/
theorem c3_status_transitions (room : Room) (cf : Option (List CFProblem))
    (sl su : List CFProblem → List CFProblem) (now : Nat) (rps rps2 : List RoomProblem)
    (u : Nat) (scores : List Score) (cfOf : Nat → Option (List Submission)) :
    ((startGameInternal room cf sl su now rps).2.1.status = room.status
      ∨ ((startGameInternal room cf sl su now rps).2.1.status = Status.started
          ∧ room.status ≠ Status.started))
    ∧ ((endGame room u).2.status = room.status ∨ (endGame room u).2.status = Status.ended)
    ∧ ((autoCheckAllSubmissionsInternal room rps2 scores cfOf).1.status = room.status
      ∨ ((autoCheckAllSubmissionsInternal room rps2 scores cfOf).1.status = Status.ended
          ∧ room.status ≠ Status.ended))
    ∧ (∀ f : Nat → Bool,
        ((leaveRoom room u f).1.all (fun r => r.status == room.status)) = true) := by
  refine ⟨?_, ?_, ?_, ?_⟩
  · by_cases hs : room.status = Status.started
    · left
      simp [startGameInternal, hs]
    · cases cf with
      | none => left; simp [startGameInternal, hs]
      | some ps =>
        cases hl : sl (lowerPartition room ps) with
        | nil => left; simp [startGameInternal, hs, hl]
        | cons p1 l1 =>
          cases hu : su (upperPartition room ps) with
          | nil => left; simp [startGameInternal, hs, hl, hu]
          | cons p2 l2 =>
            right
            constructor
            · simp [startGameInternal, hs, hl, hu]
            · exact hs
  · by_cases hu : u ≠ room.host
    · left; simp [endGame, hu]
    · right; simp [endGame, hu]
  · by_cases he : room.status = Status.ended
    · left; simp [autoCheckAllSubmissionsInternal, he]
    · cases ht : room.startTime with
      | none => left; simp [autoCheckAllSubmissionsInternal, he, ht]
      | some startMs =>
        right
        exact ⟨by simp [autoCheckAllSubmissionsInternal, he, ht], he⟩
  · intro f
    unfold leaveRoom
    cases hrem : room.participants.filter (fun q => q != u) with
    | nil => rfl
    | cons a b =>
      dsimp only
      by_cases hcond : room.host = u ∧ room.status = Status.waiting
      · rw [if_pos hcond]
        by_cases hf : f a = true
        · rw [if_pos hf]
          simp
        · rw [if_neg hf]
          simp
      · rw [if_neg hcond]
        simp

/-- C4 counterexample: the Score schema declares no index at all — in
particular no uniqueness constraint on (room, user, contestId, index) — so
two inserts of the same key both succeed and leave two Scores. -/
theorem c4_counterexample :
    scoreSchemaIndexes = []
    ∧ countKey (scoreCreate (scoreCreate [] ⟨7, 1, "A", 100, 485⟩) ⟨7, 1, "A", 100, 485⟩)
        7 1 "A" = 2 := by
  exact ⟨rfl, by decide⟩

/-- C4 (amended): at-most-one Score per (user, contestId, index) is enforced
only by the application-level findOne-before-create check (no database
uniqueness index exists): each verification path inserts a score for a key
only when none exists, so a key's multiplicity never grows beyond 1. -/
theorem c4_at_most_one_score (room : Room) (rps : List RoomProblem) (scores : List Score)
    (userId contestId : Nat) (index : String) (cf : Option (List Submission))
    (startMs gameEndMs : Nat) (subs : List Submission) (pb : RoomProblem) :
    countKey (checkSubmissionInternal room rps scores userId contestId index cf).2
        userId contestId index
      ≤ max (countKey scores userId contestId index) 1
    ∧ countKey (autoCheckProblem startMs gameEndMs userId subs pb scores)
        userId pb.contestId pb.index
      ≤ max (countKey scores userId pb.contestId pb.index) 1 := by
  constructor
  · rcases checkSubmissionInternal_scores_spec room rps scores userId contestId index cf with
      heq | ⟨hfind, _, _, _, _, _, _, _, _, heq⟩
    · rw [heq]
      exact le_max_left _ _
    · rw [heq, countKey_append, countKey_eq_zero_of_findScore_none _ _ _ _ hfind]
      simp [countKey]
  · rcases autoCheckProblem_scores_spec startMs gameEndMs userId subs pb scores with
      heq | ⟨hfind, _, _, heq⟩
    · rw [heq]
      exact le_max_left _ _
    · rw [heq, countKey_append, countKey_eq_zero_of_findScore_none _ _ _ _ hfind]
      simp [countKey]

/-- C10: a supplied rating bound of 0 (or a missing one) is falsy-coalesced:
createRoom replaces it by the defaults 800/1200, updateSettings by the
previously stored bounds; hence neither path can ever set a bound to 0. -/
theorem c10_falsy_rating_coalescing (room : Room) (userId : Nat) (v w : Option Int)
    (hhost : room.host = userId) (hstatus : room.status = Status.waiting) :
    (createRoomSettings (some 0) w).minRating = 800
    ∧ (createRoomSettings v (some 0)).maxRating = 1200
    ∧ (createRoomSettings none w).minRating = 800
    ∧ (createRoomSettings v none).maxRating = 1200
    ∧ (createRoomSettings v w).minRating ≠ 0
    ∧ (createRoomSettings v w).maxRating ≠ 0
    ∧ updateSettings room userId (some 0) (some 0)
        = UpdateResult.ok ⟨room.settings.minRating, room.settings.maxRating, 2, 15⟩
    ∧ (∀ s, updateSettings room userId v w = UpdateResult.ok s →
        (room.settings.minRating ≠ 0 → s.minRating ≠ 0)
        ∧ (room.settings.maxRating ≠ 0 → s.maxRating ≠ 0)) := by
  have hne : ∀ (x : Option Int) (d : Int), d ≠ 0 → jsOrInt x d ≠ 0 := by
    intro x d hd
    cases x with
    | none => exact hd
    | some y =>
      by_cases hy : y = 0
      · simpa [jsOrInt, hy] using hd
      · simp [jsOrInt, hy]
  refine ⟨by simp [createRoomSettings, jsOrInt], by simp [createRoomSettings, jsOrInt],
          rfl, rfl,
          hne v 800 (by decide), hne w 1200 (by decide), ?_, ?_⟩
  · simp [updateSettings, hhost, hstatus, jsOrInt]
  · intro s hs
    simp [updateSettings, hhost, hstatus] at hs
    constructor
    · intro hmin
      rw [← hs]
      exact hne v _ hmin
    · intro hmax
      rw [← hs]
      exact hne w _ hmax

/-- Witness for C10 on a concrete waiting room with non-zero stored bounds. -/
theorem c10_falsy_rating_coalescing_witness :
    (createRoomSettings (some 0) (some 0)).minRating = 800
    ∧ (createRoomSettings (some 0) (some 0)).maxRating = 1200
    ∧ updateSettings ⟨"ABC123", 1, [1], ⟨900, 1400, 2, 15⟩, Status.waiting, none⟩ 1
        (some 0) (some 0) = UpdateResult.ok ⟨900, 1400, 2, 15⟩ := by
  have h := c10_falsy_rating_coalescing
    ⟨"ABC123", 1, [1], ⟨900, 1400, 2, 15⟩, Status.waiting, none⟩ 1 (some 0) (some 0)
    rfl rfl
  exact ⟨h.1, h.2.1, h.2.2.2.2.2.2.1⟩


/-- C7: a submission whose creation instant equals startInstant exactly is
rejected by both the in-game filter and the final-sweep filter (strict lower
bound), while a submission whose creation instant equals
startInstant + duration exactly passes the final-sweep filter (inclusive
upper bound) and, when the key is unscored, the sweep inserts its Score. -/
theorem c7_window_boundary (startMs gameEndMs contestId : Nat) (index : String)
    (subStart subEnd : Submission) (userId : Nat) (pb : RoomProblem) (scores : List Score)
    (hs : subStart.creationTimeSeconds * 1000 = startMs)
    (he : subEnd.creationTimeSeconds * 1000 = gameEndMs)
    (hc : subEnd.contestId = contestId) (hi : subEnd.index = index)
    (hv : subEnd.verdict = "OK") (hlt : startMs < gameEndMs)
    (hpc : pb.contestId = contestId) (hpi : pb.index = index)
    (hfind : findScore scores userId contestId index = none) :
    isValidInGame startMs contestId index subStart = false
    ∧ isValidSweep startMs gameEndMs contestId index subStart = false
    ∧ isValidSweep startMs gameEndMs contestId index subEnd = true
    ∧ autoCheckProblem startMs gameEndMs userId [subEnd] pb scores
        = scores ++ [⟨userId, contestId, index, gameEndMs,
            computePoints pb.basePoints pb.minPoints startMs gameEndMs⟩] := by
  have hvalid : isValidSweep startMs gameEndMs contestId index subEnd = true := by
    simp [isValidSweep, hc, hi, hv, he, hlt]
  refine ⟨?_, ?_, hvalid, ?_⟩
  · simp [isValidInGame, hs]
  · simp [isValidSweep, hs]
  · rw [autoCheckProblem, hpc, hpi, hfind]
    rw [show earliestSubmission [subEnd]
          (isValidSweep startMs gameEndMs contestId index) = some subEnd by
        simp [earliestSubmission, earliestStep, hvalid]]
    dsimp only
    rw [scoreCreate, he]

/-- Witness for C7: start at 0 ms, game end at 900000 ms (15 minutes); a
submission at second 0 is rejected by both filters, one at second 900 is
accepted by the sweep and scored at 425 points. -/
theorem c7_window_boundary_witness :
    isValidInGame 0 1 "A" ⟨1, "A", "OK", 0⟩ = false
    ∧ isValidSweep 0 900000 1 "A" ⟨1, "A", "OK", 0⟩ = false
    ∧ isValidSweep 0 900000 1 "A" ⟨1, "A", "OK", 900⟩ = true
    ∧ autoCheckProblem 0 900000 7 [⟨1, "A", "OK", 900⟩] ⟨1, "A", 900, 500, 250⟩ []
        = [⟨7, 1, "A", 900000, computePoints 500 250 0 900000⟩] := by
  have h := c7_window_boundary 0 900000 1 "A" ⟨1, "A", "OK", 0⟩ ⟨1, "A", "OK", 900⟩ 7
    ⟨1, "A", 900, 500, 250⟩ [] rfl rfl rfl rfl rfl (by decide) rfl rfl rfl
  exact ⟨h.1, h.2.1, h.2.2.1, h.2.2.2⟩

/-- C9: when one rating partition is empty, the start-game flow emits
`game-starting` to the room and then an `error` to the caller, leaving the
room (status `waiting`, `startTime` null) and the RoomProblem collection
unchanged. -/
theorem c9_insufficient_problems (room : Room) (callerId now : Nat)
    (ps : List CFProblem) (sl su : List CFProblem → List CFProblem)
    (rps : List RoomProblem)
    (hsl : ∀ l, (sl l).length = l.length) (hsu : ∀ l, (su l).length = l.length)
    (hempty : lowerPartition room ps = [] ∨ upperPartition room ps = [])
    (hstatus : room.status = Status.waiting) (hstart : room.startTime = none)
    (hhost : room.host = callerId) (hparts : 2 ≤ room.participants.length) :
    startGameHandler (some room) callerId (some ps) sl su now rps
      = ([(Target.room, SocketEvent.gameStarting),
          (Target.caller,
           SocketEvent.errorEvt "Could not fetch enough problems. Try adjusting rating range.")],
         some room, rps)
    ∧ room.status = Status.waiting ∧ room.startTime = none := by
  have hns : ¬room.status = Status.started := by
    rw [hstatus]
    exact fun h => Status.noConfusion h
  have hint : startGameInternal room (some ps) sl su now rps
      = ({ success := false,
           error := some "Could not fetch enough problems. Try adjusting rating range." },
         room, rps) := by
    cases hL : sl (lowerPartition room ps) with
    | nil =>
      cases hU : su (upperPartition room ps) with
      | nil => simp [startGameInternal, hns, hL, hU]
      | cons b l2 => simp [startGameInternal, hns, hL, hU]
    | cons a l1 =>
      cases hU : su (upperPartition room ps) with
      | nil => simp [startGameInternal, hns, hL, hU]
      | cons b l2 =>
        exfalso
        rcases hempty with hE | hE
        · rw [hE] at hL
          have := hsl []
          rw [hL] at this
          simp at this
        · rw [hE] at hU
          have := hsu []
          rw [hU] at this
          simp at this
  refine ⟨?_, hstatus, hstart⟩
  rw [startGameHandler]
  rw [if_neg (by rw [hhost]; exact fun h => h rfl)]
  rw [if_neg (Nat.not_lt.mpr hparts)]
  rw [hint]
  simp

/-- Witness for C9: a waiting two-player room with rating range 3500–3600 and
a judge problem set whose only rated problem (900) falls in neither
partition. -/
theorem c9_insufficient_problems_witness :
    startGameHandler
        (some ⟨"W1X2Y3", 1, [1, 2], ⟨3500, 3600, 2, 15⟩, Status.waiting, none⟩) 1
        (some [⟨1, "A", some 900⟩]) id id 42 []
      = ([(Target.room, SocketEvent.gameStarting),
          (Target.caller,
           SocketEvent.errorEvt "Could not fetch enough problems. Try adjusting rating range.")],
         some ⟨"W1X2Y3", 1, [1, 2], ⟨3500, 3600, 2, 15⟩, Status.waiting, none⟩, []) :=
  (c9_insufficient_problems
    ⟨"W1X2Y3", 1, [1, 2], ⟨3500, 3600, 2, 15⟩, Status.waiting, none⟩ 1 42
    [⟨1, "A", some 900⟩] id id []
    (fun _ => rfl) (fun _ => rfl) (Or.inl (by decide)) rfl rfl rfl (by decide)).1


/-- Any score present after a sweep step was already present or lies in the
(startInstant, gameEnd] window. -/
theorem autoCheckProblem_mem (startMs gameEndMs u : Nat) (subs : List Submission)
    (pb : RoomProblem) (sc : List Score) (s : Score)
    (h : s ∈ autoCheckProblem startMs gameEndMs u subs pb sc) :
    s ∈ sc ∨ (startMs < s.solvedAt ∧ s.solvedAt ≤ gameEndMs) := by
  rcases autoCheckProblem_scores_spec startMs gameEndMs u subs pb sc with
    heq | ⟨-, sub, hsub, heq⟩
  · rw [heq] at h
    exact Or.inl h
  · rw [heq] at h
    rcases List.mem_append.mp h with h1 | h1
    · exact Or.inl h1
    · right
      have hvalid := earliestSubmission_valid _ _ _ hsub
      simp only [isValidSweep, Bool.and_eq_true, decide_eq_true_eq] at hvalid
      have hs : s.solvedAt = sub.creationTimeSeconds * 1000 := by
        rcases List.mem_singleton.mp h1 with rfl
        rfl
      rw [hs]
      exact ⟨hvalid.1.2, hvalid.2⟩

/-- Lifting `autoCheckProblem_mem` through the per-participant loop. -/
theorem autoCheckParticipant_mem (startMs gameEndMs : Nat) (rps : List RoomProblem)
    (u : Nat) (cf : Option (List Submission)) (sc : List Score) (s : Score)
    (h : s ∈ autoCheckParticipant startMs gameEndMs rps u cf sc) :
    s ∈ sc ∨ (startMs < s.solvedAt ∧ s.solvedAt ≤ gameEndMs) := by
  cases cf with
  | none => exact Or.inl h
  | some subs =>
    exact mem_foldl_step
      (fun sc problem => autoCheckProblem startMs gameEndMs u subs problem sc)
      (fun t => startMs < t.solvedAt ∧ t.solvedAt ≤ gameEndMs)
      (fun sc x t ht => autoCheckProblem_mem startMs gameEndMs u subs x sc t ht)
      rps sc s h

/-- C2 counterexample: with the room still `started`, the in-game check
accepts a submission created at second 1000 — 1000000 ms, far beyond the
900000 ms game end of a 15-minute game started at 0 — and persists a Score
whose solvedAt lies outside [startInstant, startInstant + duration]. -/
theorem c2_counterexample :
    (checkSubmissionInternal ⟨"R3", 7, [7], ⟨800, 1200, 2, 15⟩, Status.started, some 0⟩
        [⟨1, "A", 900, 500, 250⟩] [] 7 1 "A" (some [⟨1, "A", "OK", 1000⟩])).2
      = [⟨7, 1, "A", 1000000, 420⟩]
    ∧ ¬((1000000 : Nat) ≤ 0 + 15 * 60 * 1000) := by
  exact ⟨by decide, by decide⟩

/-- C2 (amended): every score inserted by the final sweep lies in the window
(startInstant, startInstant + duration]; the in-game check enforces only the
strict lower bound, with no upper bound, so its scores are merely
guaranteed to be after startInstant. -/
theorem c2_solve_window (room : Room) (rps : List RoomProblem) (scores : List Score)
    (cfOf : Nat → Option (List Submission)) (startMs : Nat)
    (hstart : room.startTime = some startMs) :
    (∀ s, s ∈ (autoCheckAllSubmissionsInternal room rps scores cfOf).2 →
      s ∈ scores ∨ (startMs < s.solvedAt
        ∧ s.solvedAt ≤ startMs + room.settings.duration * 60 * 1000))
    ∧ (∀ (userId contestId : Nat) (index : String) (cf : Option (List Submission)) s,
        s ∈ (checkSubmissionInternal room rps scores userId contestId index cf).2 →
        s ∈ scores ∨ startMs < s.solvedAt) := by
  constructor
  · intro s hmem
    by_cases he : room.status = Status.ended
    · rw [autoCheckAllSubmissionsInternal, if_pos he] at hmem
      exact Or.inl hmem
    · rw [autoCheckAllSubmissionsInternal, if_neg he, hstart] at hmem
      dsimp only at hmem
      exact mem_foldl_step
        (fun sc pid => autoCheckParticipant startMs
          (startMs + room.settings.duration * 60 * 1000) rps pid (cfOf pid) sc)
        (fun t => startMs < t.solvedAt
          ∧ t.solvedAt ≤ startMs + room.settings.duration * 60 * 1000)
        (fun sc pid t ht => autoCheckParticipant_mem _ _ _ _ _ sc t ht)
        room.participants scores s hmem
  · intro userId contestId index cf s hmem
    rcases checkSubmissionInternal_scores_spec room rps scores userId contestId index cf with
      heq | ⟨-, startMs', pb, subs, sub, hst, -, -, hsub, heq⟩
    · rw [heq] at hmem
      exact Or.inl hmem
    · rw [heq] at hmem
      rcases List.mem_append.mp hmem with h1 | h1
      · exact Or.inl h1
      · right
        have hse : startMs' = startMs := by
          rw [hstart] at hst
          exact (Option.some.injEq _ _ ▸ hst).symm
        have hvalid := earliestSubmission_valid _ _ _ hsub
        simp only [isValidInGame, Bool.and_eq_true, decide_eq_true_eq] at hvalid
        have hs : s.solvedAt = sub.creationTimeSeconds * 1000 := by
          rcases List.mem_singleton.mp h1 with rfl
          rfl
        rw [hs, ← hse]
        exact hvalid.2

/-- Witness for C2: a 15-minute game started at 0; the sweep inserts the
score of a submission at second 60 with 495 points, inside the window. -/
theorem c2_solve_window_witness :
    (⟨7, 1, "A", 60000, 495⟩ : Score) ∈ ([] : List Score)
    ∨ ((0 : Nat) < 60000
        ∧ (60000 : Nat)
          ≤ 0 + (⟨"R4", 7, [7], ⟨800, 1200, 2, 15⟩, Status.started, some 0⟩ : Room).settings.duration * 60 * 1000) :=
  (c2_solve_window ⟨"R4", 7, [7], ⟨800, 1200, 2, 15⟩, Status.started, some 0⟩
      [⟨1, "A", 900, 500, 250⟩] [] (fun _ => some [⟨1, "A", "OK", 60⟩]) 0 rfl).1
    ⟨7, 1, "A", 60000, 495⟩ (by decide)


/-- C1 counterexample: for a key whose Score already exists, the
`check-problem` handler still fans out `problem-solved` and the (unchanged)
leaderboard to the whole room — it does not short-circuit before fan-out. -/
theorem c1_counterexample :
    checkProblemHandler [(7, "alice"), (8, "bob")]
        (some ⟨"K3X9Q0", 7, [7, 8], ⟨800, 1200, 2, 15⟩, Status.started, some 0⟩)
        [⟨1, "A", 900, 500, 250⟩] [⟨7, 1, "A", 180000, 485⟩] 7 "alice" 1 "A" none
      = ([(Target.room, SocketEvent.problemSolved 7 "alice" 1 "A" 485),
          (Target.room,
           SocketEvent.leaderboardUpdate [⟨"alice", 485, 1, [⟨1, "A", 485, 180000⟩]⟩])],
         [⟨7, 1, "A", 180000, 485⟩]) := by decide

/-- C1 (amended): for a check-problem on an already-solved key the server does
yield the previously recorded points and never queries the judge (the result
is independent of the judge response), and the score collection is unchanged;
but the handler does not short-circuit before fan-out: it re-broadcasts
`problem-solved` and `leaderboard-update` (over unchanged scores) to the
whole room. -/
theorem c1_already_solved_rebroadcast (users : List (Nat × String)) (room : Room)
    (rps : List RoomProblem) (scores : List Score) (userId : Nat) (handle : String)
    (contestId : Nat) (index : String) (pb : RoomProblem) (ex : Score)
    (hstatus : room.status = Status.started) (hc : contestId ≠ 0) (hi : index ≠ "")
    (hpb : findProblem rps contestId index = some pb)
    (hex : findScore scores userId contestId index = some ex) :
    ∀ cfData,
      checkProblemHandler users (some room) rps scores userId handle contestId index cfData
        = ([(Target.room, SocketEvent.problemSolved userId handle contestId index ex.points),
            (Target.room, SocketEvent.leaderboardUpdate (computeLeaderboard users scores))],
           scores) := by
  intro cfData
  simp [checkProblemHandler, checkSubmissionInternal, hstatus, hc, hi, hpb, hex]

/-- Witness for C1 at a concrete already-solved state. -/
theorem c1_already_solved_rebroadcast_witness :
    checkProblemHandler [(7, "alice")]
        (some ⟨"K3X9Q0", 7, [7], ⟨800, 1200, 2, 15⟩, Status.started, some 0⟩)
        [⟨1, "A", 900, 500, 250⟩] [⟨7, 1, "A", 180000, 485⟩] 7 "alice" 1 "A"
        (some [⟨1, "A", "OK", 9999⟩])
      = ([(Target.room, SocketEvent.problemSolved 7 "alice" 1 "A" 485),
          (Target.room,
           SocketEvent.leaderboardUpdate
             (computeLeaderboard [(7, "alice")] [⟨7, 1, "A", 180000, 485⟩]))],
         [⟨7, 1, "A", 180000, 485⟩]) :=
  c1_already_solved_rebroadcast [(7, "alice")]
    ⟨"K3X9Q0", 7, [7], ⟨800, 1200, 2, 15⟩, Status.started, some 0⟩
    [⟨1, "A", 900, 500, 250⟩] [⟨7, 1, "A", 180000, 485⟩] 7 "alice" 1 "A"
    ⟨1, "A", 900, 500, 250⟩ ⟨7, 1, "A", 180000, 485⟩
    rfl (by decide) (by decide) rfl rfl (some [⟨1, "A", "OK", 9999⟩])

/-- C8: host transfer happens exactly for waiting rooms.  In both the socket
path (`transferHostIfNeeded`, also used on grace expiry) and the HTTP
`leaveRoom` path, when the host leaves a waiting room with a remaining
participant, the first remaining participant (insertion order) becomes host
and `host-changed` is emitted; for a room that is not waiting no transfer
happens and no `host-changed` is emitted. -/
theorem c8_host_transfer (roomW roomS : Room) (u : Nat) (f : Nat → Bool)
    (p : Nat) (rest : List Nat)
    (hW : roomW.status = Status.waiting) (hWhost : roomW.host = u)
    (hS : roomS.status ≠ Status.waiting) :
    (roomW.participants = p :: rest → f p = true →
      transferHostIfNeeded roomW u f
        = ⟨some p, [(Target.room, SocketEvent.hostChanged p)], true⟩)
    ∧ transferHostIfNeeded roomS u f = ⟨none, [], false⟩
    ∧ (roomW.participants.filter (fun q => q != u) = p :: rest → f p = true →
      leaveRoom roomW u f
        = (some { roomW with participants := p :: rest, host := p },
           [(Target.room, SocketEvent.hostChanged p),
            (Target.room, SocketEvent.roomUpdate),
            (Target.room, SocketEvent.playerLeft u)]))
    ∧ (∀ v r, (leaveRoom roomS v f).1 = some r → r.host = roomS.host)
    ∧ (∀ v q, (Target.room, SocketEvent.hostChanged q) ∉ (leaveRoom roomS v f).2) := by
  refine ⟨?_, ?_, ?_, ?_, ?_⟩
  · intro hparts hf
    simp [transferHostIfNeeded, hWhost, hW, hparts, hf]
  · by_cases hh : roomS.host = u
    · simp [transferHostIfNeeded, hh, hS]
    · simp [transferHostIfNeeded, hh]
  · intro hfilter hf
    simp [leaveRoom, hfilter, hWhost, hW, hf]
  · intro v r hr
    unfold leaveRoom at hr
    cases hrem : roomS.participants.filter (fun q => q != v) with
    | nil => simp [hrem] at hr
    | cons firstP rest2 =>
      rw [hrem] at hr
      dsimp only at hr
      rw [if_neg (fun hand => hS hand.2)] at hr
      cases hr
      rfl
  · intro v q
    unfold leaveRoom
    cases hrem : roomS.participants.filter (fun q2 => q2 != v) with
    | nil => simp
    | cons firstP rest2 =>
      dsimp only
      rw [if_neg (fun hand => hS hand.2)]
      simp

/-- Witness for C8: host 1 leaves waiting room with remaining [2, 3]; in a
started room no transfer occurs. -/
theorem c8_host_transfer_witness :
    transferHostIfNeeded ⟨"W2", 1, [2, 3], ⟨800, 1200, 2, 15⟩, Status.waiting, none⟩ 1
        (fun _ => true)
      = ⟨some 2, [(Target.room, SocketEvent.hostChanged 2)], true⟩
    ∧ transferHostIfNeeded ⟨"S2", 1, [1, 2], ⟨800, 1200, 2, 15⟩, Status.started, some 0⟩ 1
        (fun _ => true)
      = ⟨none, [], false⟩
    ∧ leaveRoom ⟨"W2", 1, [1, 2, 3], ⟨800, 1200, 2, 15⟩, Status.waiting, none⟩ 1
        (fun _ => true)
      = (some ⟨"W2", 2, [2, 3], ⟨800, 1200, 2, 15⟩, Status.waiting, none⟩,
         [(Target.room, SocketEvent.hostChanged 2),
          (Target.room, SocketEvent.roomUpdate),
          (Target.room, SocketEvent.playerLeft 1)]) := by
  have h := c8_host_transfer
    ⟨"W2", 1, [1, 2, 3], ⟨800, 1200, 2, 15⟩, Status.waiting, none⟩
    ⟨"S2", 1, [1, 2], ⟨800, 1200, 2, 15⟩, Status.started, some 0⟩
    1 (fun _ => true) 2 [3] rfl rfl (by decide)
  have h1 := c8_host_transfer
    ⟨"W2", 1, [2, 3], ⟨800, 1200, 2, 15⟩, Status.waiting, none⟩
    ⟨"S2", 1, [1, 2], ⟨800, 1200, 2, 15⟩, Status.started, some 0⟩
    1 (fun _ => true) 2 [3] rfl rfl (by decide)
  exact ⟨h1.1 rfl rfl, h.2.1, h.2.2.1 (by decide) rfl⟩

end Takedown
